import Mathlib

/-!
# Verification of the OPC UA device support session layer

Shallow embedding of the session layer of the EPICS OPC UA device support
(class `Session` in `Session.h` and its UA SDK registry/factory code in
`UaSdk/Session.cpp`), together with theorems settling the specification
claims about it.

The embedding follows the C++ sources.  Where the code that decides a claim
is repository code that is not among the given sources (only its declaration
or caller is), the corresponding definition is modelled from the spec and
marked as such in its doc comment.
-/

namespace DevOpcua

/-! ## Security Configuration Store

The six static members of class `Session` (`Session.h` lines 222-227,
defined in `UaSdk/Session.cpp` lines 82-87): four PKI directory paths,
the client certificate file and the client private key file. -/

/-- The process-wide security configuration: the static string members of
class `Session`. -/
structure SecurityConfig where
  securityCertificateTrustListDir : String
  securityCertificateRevocationListDir : String
  securityIssuersCertificatesDir : String
  securityIssuersRevocationListDir : String
  securityClientCertificateFile : String
  securityClientPrivateKeyFile : String
  deriving DecidableEq, Repr

/-- `Session::setupPKI` (`Session.h` lines 202-211): moves the four argument
strings into the four PKI directory members. -/
def setupPKI (cfg : SecurityConfig)
    (certTrustList certRevocationList issuersTrustList issuersRevocationList : String) :
    SecurityConfig :=
  { cfg with
    securityCertificateTrustListDir := certTrustList
    securityCertificateRevocationListDir := certRevocationList
    securityIssuersCertificatesDir := issuersTrustList
    securityIssuersRevocationListDir := issuersRevocationList }

/-- `Session::setClientCertificate` (`Session.h` lines 188-192): moves the two
argument strings into the client certificate / private key members. -/
def setClientCertificate (cfg : SecurityConfig) (pubKey prvKey : String) :
    SecurityConfig :=
  { cfg with
    securityClientCertificateFile := pubKey
    securityClientPrivateKeyFile := prvKey }

/-! ## PKI writability probe

`setupPKI` in the sources only records the four paths.  The probe that the
spec describes runs in repository code outside the given sources, so it is
modelled from the spec below.  The file system is abstracted as the set of
existing file paths plus the set of directories in which file creation
succeeds. -/

/-- Abstract file-system state: the existing files and the directories where
the process may create files. -/
structure FileSys where
  files : List String
  writableDirs : List String
  deriving DecidableEq, Repr

/-- Path of a file `fname` inside directory `dir`. -/
def FileSys.pathIn (dir fname : String) : String := dir ++ "/" ++ fname

/-- Creating a file succeeds exactly in a writable directory. -/
def FileSys.createFile (fs : FileSys) (dir fname : String) : Option FileSys :=
  if dir ∈ fs.writableDirs then
    some { fs with files := fs.files ++ [FileSys.pathIn dir fname] }
  else none

/-- Removing a file deletes every entry with that path. -/
def FileSys.removeFile (fs : FileSys) (path : String) : FileSys :=
  { fs with files := fs.files.filter (fun p => p ≠ path) }

/-- Outcome of probing one directory. -/
structure ProbeResult where
  fs : FileSys
  writable : Bool
  warned : Bool
  deriving DecidableEq, Repr

/-- Modelled from the spec: the writability probe of one PKI directory (the
probing code is repository code outside the given sources; only `setupPKI`
itself is in `Session.h`).  It attempts to create a uniquely named temporary
file in the directory and immediately removes it; the directory is reported
writable iff creation succeeds, and a (non-fatal) warning is issued exactly
for a writable directory. -/
def probeDir (fs : FileSys) (dir tmpName : String) : ProbeResult :=
  match fs.createFile dir tmpName with
  | some fs1 =>
      { fs := fs1.removeFile (FileSys.pathIn dir tmpName), writable := true, warned := true }
  | none =>
      { fs := fs, writable := false, warned := false }

/-- Probe a list of directories in order, collecting the directories that
triggered the writability warning. -/
def probeDirs (fs : FileSys) (dirs : List String) (tmpName : String) :
    FileSys × List String :=
  match dirs with
  | [] => (fs, [])
  | d :: rest =>
      let r := probeDir fs d tmpName
      let r2 := probeDirs r.fs rest tmpName
      (r2.1, (if r.warned then [d] else []) ++ r2.2)

/-- Modelled from the spec: the full `setupPKI` operation as the spec
describes it — set the four paths (the source `setupPKI`), then probe each
of the four directories for writability.  The result is the new
configuration, the file-system state afterwards, and the list of directories
that received the non-fatal warning; the operation itself always completes
(it has no failure outcome). -/
def setupPKIAndProbe (cfg : SecurityConfig) (fs : FileSys)
    (certTrustList certRevocationList issuersTrustList issuersRevocationList
     tmpName : String) :
    SecurityConfig × FileSys × List String :=
  let cfg1 := setupPKI cfg certTrustList certRevocationList issuersTrustList
      issuersRevocationList
  let r := probeDirs fs
      [certTrustList, certRevocationList, issuersTrustList, issuersRevocationList] tmpName
  (cfg1, r.1, r.2)

/-! ## Option help

`Session::showOptionHelp` (`UaSdk/Session.cpp` lines 63-71) prints a fixed
help text to stdout; the option names are the first word of each line after
the `Options:` header. -/

/-- The exact lines printed by `Session::showOptionHelp`
(`UaSdk/Session.cpp` lines 66-70): each string piece of the output chain is
one line. -/
def showOptionHelpLines : List String :=
  ["Options:",
   "clientcert   path to client certificate [none]",
   "clientkey    path to client private key [none]",
   "batch-nodes  max. nodes per service call [0 = no limit]"]

/-- The characters of a string up to (excluding) the first space. -/
def firstWordAux : List Char → List Char
  | [] => []
  | c :: rest => if c = ' ' then [] else c :: firstWordAux rest

/-- The first word of a line (the option name column of the help text). -/
def firstWord (s : String) : String :=
  String.mk (firstWordAux s.data)

/-- The option names presented by a help text: the first word of every line
after the `Options:` header line. -/
def optionNamesOfHelp (lines : List String) : List String :=
  (lines.drop 1).map firstWord

/-- The option names the claim (and the spec's command table) lists as the
recognized set: sec-mode, sec-policy, sec-level, ident-file (alias sec-id),
batch-nodes. -/
def claimedOptionNames : List String :=
  ["sec-mode", "sec-policy", "sec-level", "ident-file", "sec-id", "batch-nodes"]

/-! ## Auto-Reconnect Timer

`Session::AutoConnect` (`Session.h` lines 230-247) wraps an `epicsTimer`.
The timer is modelled per the EPICS base contract used by the code: a
single-shot timer holding at most one pending expiry; `destroy` aborts any
pending expiry, after which the timer can never fire again. -/

/-- Model of the `epicsTimer` owned by `AutoConnect`: an optional pending
expiry (carrying the armed delay) and whether the timer has been
destroyed. -/
structure EpicsTimer where
  pending : Option Rat
  destroyed : Bool
  deriving DecidableEq, Repr

/-- `epicsTimer::start(notify, delay)`: arm the timer, replacing any pending
expiry. -/
def EpicsTimer.startWith (t : EpicsTimer) (delay : Rat) : EpicsTimer :=
  { t with pending := some delay }

/-- `epicsTimer::destroy()`: abort any pending expiry; the timer is gone. -/
def EpicsTimer.doDestroy (_t : EpicsTimer) : EpicsTimer :=
  { pending := none, destroyed := true }

/-- A timer may fire only while it holds a pending expiry and has not been
destroyed. -/
def EpicsTimer.canExpire (t : EpicsTimer) : Bool :=
  t.pending.isSome && !t.destroyed

/-- The `epicsTimerNotify::expireStatus` result of an expire callback. -/
inductive ExpireStatus
  | noRestart
  | restart (delay : Rat)
  deriving DecidableEq, Repr

/-- The per-session state the timer claims are about: the `autoConnector`
member with its timer and fixed delay, the `autoConnect` flag, and a count
of `connect()` invocations made on this session. -/
structure SessionState where
  timer : EpicsTimer
  delay : Rat
  autoConnect : Bool
  connectCount : Nat
  deriving DecidableEq, Repr

/-- `Session::Session` (`Session.h` lines 216-220): the `autoConnector`
member is constructed with the configuration constant `opcua_ConnectTimeout`
as its delay; the timer starts unarmed. -/
def mkSession (opcuaConnectTimeout : Rat) (autoConnect : Bool) : SessionState :=
  { timer := { pending := none, destroyed := false }
  , delay := opcuaConnectTimeout
  , autoConnect := autoConnect
  , connectCount := 0 }

/-- `AutoConnect::start` (`Session.h` line 238): `timer.start(*this, delay)`
— always arms with the stored construction-time delay. -/
def AutoConnect.start (s : SessionState) : SessionState :=
  { s with timer := s.timer.startWith s.delay }

/-- Modelled from the spec: the implementation of `connect()` is not among
the given sources (`Session.h` declares it pure virtual).  Per the header
contract (`Session.h` lines 50-51), when the connection attempt fails and
the `autoConnect` flag is true, the reconnect timer is restarted.  The
`failed` parameter is the outcome of this attempt; every invocation is
counted. -/
def connectStep (failed : Bool) (s : SessionState) : SessionState :=
  let s1 := { s with connectCount := s.connectCount + 1 }
  if failed && s1.autoConnect then AutoConnect.start s1 else s1

/-- `AutoConnect::expire` (`Session.h` lines 239-242): invoke
`client.connect()` and return `noRestart` — `connect()` alone restarts the
timer on failure. -/
def expire (failed : Bool) (s : SessionState) : ExpireStatus × SessionState :=
  (ExpireStatus.noRestart, connectStep failed s)

/-- One firing of the session's timer by the timer queue: if the timer is
armed and not destroyed, the pending expiry is consumed, `expire` runs, and
the framework rearms the timer only when `expire` returns `restart d`.  A
destroyed or unarmed timer does not fire. -/
def timerFire (failed : Bool) (s : SessionState) : SessionState :=
  if s.timer.canExpire then
    let s0 : SessionState := { s with timer := { s.timer with pending := none } }
    let es := expire failed s0
    match es.1 with
    | ExpireStatus.noRestart => es.2
    | ExpireStatus.restart d => { es.2 with timer := es.2.timer.startWith d }
  else s

/-- `Session::~Session` destroys the `autoConnector` member, whose destructor
`AutoConnect::~AutoConnect` (`Session.h` line 237) calls `timer.destroy()`. -/
def sessionDestruct (s : SessionState) : SessionState :=
  { s with timer := s.timer.doDestroy }

/-- The operations a session trace is made of: a timer firing, or an
explicit `connect()` call, each with the outcome of the connect attempt. -/
inductive SessionOp
  | fire (failed : Bool)
  | connectCall (failed : Bool)
  deriving DecidableEq, Repr

/-- One step of a session trace. -/
def stepOp (s : SessionState) (op : SessionOp) : SessionState :=
  match op with
  | SessionOp.fire failed => timerFire failed s
  | SessionOp.connectCall failed => connectStep failed s

/-- Run a session trace. -/
def runOps (ops : List SessionOp) (s : SessionState) : SessionState :=
  ops.foldl stepOp s

/-- Run a sequence of timer firings (with the given connect outcomes). -/
def runFires (outcomes : List Bool) (s : SessionState) : SessionState :=
  outcomes.foldl (fun st f => timerFire f st) s

/-! ## Session registry and factory

`UaSdk/Session.cpp`: the static factory `Session::createSession` (lines
37-43) and the lookups `Session::findSession` / `Session::sessionExists`
(lines 45-55), which delegate to `SessionUaSdk`. -/

/-- A constructed `SessionUaSdk` object, with the constructor arguments in
the order of `new SessionUaSdk(name, url, autoconnect, debuglevel)`. -/
structure SessionObj where
  name : String
  url : String
  autoConnect : Bool
  debuglevel : Int
  deriving DecidableEq, Repr

/-- Modelled from the spec: `SessionUaSdk::sessionExists` is not among the
given sources (`UaSdk/Session.cpp` lines 51-55 merely delegate to it); per
the spec it is a pure lookup that returns a boolean and never fails.  It is
modelled as an operation returning the answer together with the (unchanged)
registry, and its type has no error outcome. -/
def sessionExists (reg : List SessionObj) (name : String) :
    Bool × List SessionObj :=
  (reg.any (fun s => s.name == name), reg)

/-- The failure condition of `findSession`. -/
inductive LookupError
  | notFound
  deriving DecidableEq, Repr

/-- Modelled from the spec: `SessionUaSdk::findSession` is not among the
given sources (`UaSdk/Session.cpp` lines 45-49 merely delegate to it); per
the spec it returns the existing session or fails with a Not-Found
condition. -/
def findSession (reg : List SessionObj) (name : String) :
    Except LookupError SessionObj :=
  match reg.find? (fun s => s.name == name) with
  | some s => Except.ok s
  | none => Except.error LookupError.notFound

/-- Process-wide state of the UA SDK layer: how many times
`UaPlatformLayer::init()` has run, the `opcuaUaSdk_once` flag, and the
multiset of constructed `SessionUaSdk` objects. -/
structure ProcState where
  platformInitCount : Nat
  onceDone : Bool
  sessions : List SessionObj
  deriving DecidableEq, Repr

/-- Observable events of the factory layer. -/
inductive ProcEvent
  | platformInit
  | sessionConstructed (name : String)
  deriving DecidableEq, Repr

/-- `epicsThreadOnce(&opcuaUaSdk_once, &opcuaUaSdk_init, nullptr)` with
`opcuaUaSdk_init` calling `UaPlatformLayer::init()` (`UaSdk/Session.cpp`
lines 28-41): per the EPICS once contract, the init function runs exactly on
the first call and never again. -/
def runOnceInit (st : ProcState) : ProcState × List ProcEvent :=
  if st.onceDone then (st, [])
  else ({ st with onceDone := true, platformInitCount := st.platformInitCount + 1 },
        [ProcEvent.platformInit])

/-- `Session::createSession` (`UaSdk/Session.cpp` lines 37-43): run the
platform init through `epicsThreadOnce`, then unconditionally construct a
new `SessionUaSdk` object.  There is no duplicate-name check, the return
type carries no error, and the function returns nothing (`void`) — the
model's only outputs are the new state and the events. -/
def createSession (st : ProcState) (name url : String) (debuglevel : Int)
    (autoconnect : Bool) : ProcState × List ProcEvent :=
  let r := runOnceInit st
  ({ r.1 with sessions := r.1.sessions ++ [⟨name, url, autoconnect, debuglevel⟩] },
   r.2 ++ [ProcEvent.sessionConstructed name])

/-- Run a sequence of `createSession` calls (each element carries the call's
arguments), collecting the event trace. -/
def runCreates (calls : List SessionObj) (st : ProcState) :
    ProcState × List ProcEvent :=
  match calls with
  | [] => (st, [])
  | c :: rest =>
      let r1 := createSession st c.name c.url c.debuglevel c.autoConnect
      let r2 := runCreates rest r1.1
      (r2.1, r1.2 ++ r2.2)

/-- The state of a fresh process: `opcuaUaSdk_once` untriggered, no platform
init, no sessions. -/
def initialProcState : ProcState :=
  { platformInitCount := 0, onceDone := false, sessions := [] }

/-! ## Disconnect

`Session::disconnect` is pure virtual in `Session.h` (lines 57-76); the
implementation is not among the given sources, so it is modelled from the
spec below. -/

/-- The connection states of a session (spec §4.1). -/
inductive ConnectionState
  | Disconnected
  | Connecting
  | Connected
  deriving DecidableEq, Repr

/-- Outcome of a `disconnect()` call: the state it leaves the session in,
the `long` status it returns to the caller (0 = OK), and whether an
underlying failure was logged. -/
structure DisconnectOutcome where
  state : ConnectionState
  status : Int
  loggedFailure : Bool
  deriving DecidableEq, Repr

/-- Modelled from the spec: the implementation of `disconnect()` is not
among the given sources (`Session.h` lines 57-76 declare it pure virtual).
Per the header contract and spec §4.1/§7, `disconnect()` always completes
with the session in `Disconnected` state; an underlying protocol-level
failure is logged and swallowed, never propagated to the caller, so the
returned status is always 0. -/
def disconnect (_st : ConnectionState) (underlyingFailed : Bool) :
    DisconnectOutcome :=
  { state := ConnectionState.Disconnected
  , status := 0
  , loggedFailure := underlyingFailed }

/-- The delay invariant of a session constructed with delay constant `c`:
the stored delay is `c` and any pending timer arm carries exactly `c`. -/
def delayInv (c : Rat) (s : SessionState) : Prop :=
  s.delay = c ∧ ∀ d, s.timer.pending = some d → d = c

/-- A concrete session with its reconnect timer armed: constructed with
delay 10 and `autoConnect`, then armed via `AutoConnect.start`. -/
def armedSession : SessionState :=
  AutoConnect.start (mkSession 10 true)

/-- A concrete process state that already holds a session named `s1`. -/
def dupState : ProcState :=
  (createSession initialProcState "s1" "url1" 0 true).1

/-! ## Theorems -/

/-- C7: `setClientCertificate` records exactly the client certificate
(public part) path and the private key file path, and leaves the four PKI
directory paths of the Security Configuration Store unchanged. -/
theorem setClientCertificate_frame (cfg : SecurityConfig) (pubKey prvKey : String) :
    (setClientCertificate cfg pubKey prvKey).securityClientCertificateFile = pubKey ∧
    (setClientCertificate cfg pubKey prvKey).securityClientPrivateKeyFile = prvKey ∧
    (setClientCertificate cfg pubKey prvKey).securityCertificateTrustListDir =
      cfg.securityCertificateTrustListDir ∧
    (setClientCertificate cfg pubKey prvKey).securityCertificateRevocationListDir =
      cfg.securityCertificateRevocationListDir ∧
    (setClientCertificate cfg pubKey prvKey).securityIssuersCertificatesDir =
      cfg.securityIssuersCertificatesDir ∧
    (setClientCertificate cfg pubKey prvKey).securityIssuersRevocationListDir =
      cfg.securityIssuersRevocationListDir :=
  ⟨rfl, rfl, rfl, rfl, rfl, rfl⟩

/-- C6: in every session state and regardless of whether the underlying
protocol-level disconnect fails, `disconnect()` leaves the session in the
Disconnected state and returns success to the caller; the underlying failure
is only logged, never propagated. -/
theorem disconnect_always_disconnected (st : ConnectionState) (failed : Bool) :
    (disconnect st failed).state = ConnectionState.Disconnected ∧
    (disconnect st failed).status = 0 ∧
    (disconnect st failed).loggedFailure = failed :=
  ⟨rfl, rfl, rfl⟩

/-- C3: evaluating the help text printed by `Session::showOptionHelp`: the
option names it presents are clientcert, clientkey and batch-nodes; the
claimed name sec-mode is absent, and the presented set differs from the
claimed set sec-mode, sec-policy, sec-level, ident-file, sec-id,
batch-nodes. -/
theorem showOptionHelp_names :
    optionNamesOfHelp showOptionHelpLines = ["clientcert", "clientkey", "batch-nodes"] ∧
    ¬ ("sec-mode" ∈ optionNamesOfHelp showOptionHelpLines) ∧
    optionNamesOfHelp showOptionHelpLines ≠ claimedOptionNames := by
  decide

/-- C8: `sessionExists` is a pure lookup: it returns a boolean, leaves the
registry unchanged, and its type carries no failure outcome; it answers true
exactly when a session of that name is registered, and answers false exactly
when `findSession` fails with the Not-Found condition. -/
theorem sessionExists_pure_lookup (reg : List SessionObj) (name : String) :
    (sessionExists reg name).2 = reg ∧
    ((sessionExists reg name).1 = true ↔ ∃ s ∈ reg, s.name = name) ∧
    ((sessionExists reg name).1 = false ↔
      findSession reg name = Except.error LookupError.notFound) := by
  refine ⟨rfl, ?_, ?_⟩
  · simp [sessionExists]
  · cases hf : List.find? (fun s => s.name == name) reg with
    | none =>
        have hall := List.find?_eq_none.mp hf
        simp only [sessionExists, findSession, hf]
        constructor
        · intro _; trivial
        · intro _
          simp only [List.any_eq_false]
          intro s hs
          exact hall s hs
    | some s =>
        have hmem := List.mem_of_find?_eq_some hf
        have hp := List.find?_some hf
        simp only [sessionExists, findSession, hf]
        constructor
        · intro hfalse
          have : reg.any (fun s => s.name == name) = true := by
            simp only [List.any_eq_true]
            exact ⟨s, hmem, hp⟩
          rw [hfalse] at this
          cases this
        · intro h
          cases h

/-- Helper: removing a freshly created file restores the file system. -/
theorem removeFile_append_fresh (fs : FileSys) (p : String) (h : ¬ p ∈ fs.files) :
    FileSys.removeFile { fs with files := fs.files ++ [p] } p = fs := by
  cases fs with
  | mk files wdirs =>
      simp only [FileSys.removeFile, List.filter_append, FileSys.mk.injEq, and_true]
      have h2 : ([p]).filter (fun q => q ≠ p) = [] := by simp
      rw [h2, List.append_nil, List.filter_eq_self]
      intro a ha
      simp only [decide_eq_true_eq]
      intro hEq
      exact h (hEq ▸ ha)

/-- Helper: probing a directory with a temporary-file name that is not yet
present restores the file system exactly and reports/warns writability. -/
theorem probeDir_fresh (fs : FileSys) (dir tmpName : String)
    (h : ¬ FileSys.pathIn dir tmpName ∈ fs.files) :
    (probeDir fs dir tmpName).fs = fs ∧
    (probeDir fs dir tmpName).writable = fs.writableDirs.contains dir ∧
    (probeDir fs dir tmpName).warned = fs.writableDirs.contains dir := by
  by_cases hw : dir ∈ fs.writableDirs
  · have hred : probeDir fs dir tmpName =
        { fs := FileSys.removeFile
            { fs with files := fs.files ++ [FileSys.pathIn dir tmpName] }
            (FileSys.pathIn dir tmpName),
          writable := true, warned := true } := by
      simp [probeDir, FileSys.createFile, hw]
    rw [hred]
    refine ⟨removeFile_append_fresh fs (FileSys.pathIn dir tmpName) h, ?_, ?_⟩ <;>
      simp [hw]
  · have hred : probeDir fs dir tmpName =
        { fs := fs, writable := false, warned := false } := by
      simp [probeDir, FileSys.createFile, hw]
    rw [hred]
    refine ⟨rfl, ?_, ?_⟩ <;> simp [hw]

/-- Helper: probing a list of directories with a fresh temporary-file name
restores the file system and warns exactly for the writable directories. -/
theorem probeDirs_fresh (dirs : List String) (fs : FileSys) (tmpName : String)
    (h : ∀ d ∈ dirs, ¬ FileSys.pathIn d tmpName ∈ fs.files) :
    (probeDirs fs dirs tmpName).1 = fs ∧
    (probeDirs fs dirs tmpName).2 =
      dirs.filter (fun d => fs.writableDirs.contains d) := by
  induction dirs with
  | nil => exact ⟨rfl, rfl⟩
  | cons d rest ih =>
      obtain ⟨hfs, _hwrit, hwarn⟩ :=
        probeDir_fresh fs d tmpName (h d (List.mem_cons_self d rest))
      have hrest := ih (fun x hx => h x (List.mem_cons_of_mem d hx))
      simp only [probeDirs, hfs, hwarn]
      refine ⟨hrest.1, ?_⟩
      rw [hrest.2, List.filter_cons]
      cases hw : fs.writableDirs.contains d <;> simp

/-- C2: after `setupPKI` sets the four PKI directory paths, each of the four
directories is probed by creating and immediately removing a uniquely named
temporary file inside it (so the file system is restored exactly), the
non-fatal warning is triggered exactly for the directories found writable,
and the configured paths are the four arguments regardless of the probe
outcome. -/
theorem setupPKI_sets_and_probes (cfg : SecurityConfig) (fs : FileSys)
    (a b c d tmpName : String)
    (h : ∀ x ∈ [a, b, c, d], ¬ FileSys.pathIn x tmpName ∈ fs.files) :
    (setupPKIAndProbe cfg fs a b c d tmpName).1 = setupPKI cfg a b c d ∧
    (setupPKIAndProbe cfg fs a b c d tmpName).1.securityCertificateTrustListDir = a ∧
    (setupPKIAndProbe cfg fs a b c d tmpName).1.securityCertificateRevocationListDir = b ∧
    (setupPKIAndProbe cfg fs a b c d tmpName).1.securityIssuersCertificatesDir = c ∧
    (setupPKIAndProbe cfg fs a b c d tmpName).1.securityIssuersRevocationListDir = d ∧
    (setupPKIAndProbe cfg fs a b c d tmpName).2.1 = fs ∧
    (setupPKIAndProbe cfg fs a b c d tmpName).2.2 =
      [a, b, c, d].filter (fun x => fs.writableDirs.contains x) := by
  obtain ⟨h1, h2⟩ := probeDirs_fresh [a, b, c, d] fs tmpName h
  exact ⟨rfl, rfl, rfl, rfl, rfl, h1, h2⟩

/-- Witness for C2 at a concrete input: an empty file system where only the
first of the four directories is writable. -/
theorem setupPKI_sets_and_probes_witness :
    (setupPKIAndProbe ⟨"", "", "", "", "", ""⟩ ⟨[], ["ta"]⟩ "ta" "tb" "tc" "td" "tmp0").1 =
      setupPKI ⟨"", "", "", "", "", ""⟩ "ta" "tb" "tc" "td" ∧
    (setupPKIAndProbe ⟨"", "", "", "", "", ""⟩ ⟨[], ["ta"]⟩ "ta" "tb" "tc" "td"
      "tmp0").1.securityCertificateTrustListDir = "ta" ∧
    (setupPKIAndProbe ⟨"", "", "", "", "", ""⟩ ⟨[], ["ta"]⟩ "ta" "tb" "tc" "td"
      "tmp0").1.securityCertificateRevocationListDir = "tb" ∧
    (setupPKIAndProbe ⟨"", "", "", "", "", ""⟩ ⟨[], ["ta"]⟩ "ta" "tb" "tc" "td"
      "tmp0").1.securityIssuersCertificatesDir = "tc" ∧
    (setupPKIAndProbe ⟨"", "", "", "", "", ""⟩ ⟨[], ["ta"]⟩ "ta" "tb" "tc" "td"
      "tmp0").1.securityIssuersRevocationListDir = "td" ∧
    (setupPKIAndProbe ⟨"", "", "", "", "", ""⟩ ⟨[], ["ta"]⟩ "ta" "tb" "tc" "td"
      "tmp0").2.1 = (⟨[], ["ta"]⟩ : FileSys) ∧
    (setupPKIAndProbe ⟨"", "", "", "", "", ""⟩ ⟨[], ["ta"]⟩ "ta" "tb" "tc" "td"
      "tmp0").2.2 =
      ["ta", "tb", "tc", "td"].filter
        (fun x => (FileSys.mk [] ["ta"]).writableDirs.contains x) :=
  setupPKI_sets_and_probes ⟨"", "", "", "", "", ""⟩ ⟨[], ["ta"]⟩ "ta" "tb" "tc" "td"
    "tmp0" (by intro x _ hx; cases hx)

/-- Helper: `timerFire` written as a single conditional — the `noRestart`
returned by `expire` means the framework never rearms, so a firing is
exactly one `connect()` step on the disarmed session. -/
theorem timerFire_eq (failed : Bool) (s : SessionState) :
    timerFire failed s =
      if s.timer.canExpire then
        connectStep failed { s with timer := { s.timer with pending := none } }
      else s := rfl

/-- C1: when the Auto-Reconnect Timer of a session fires, the expire handler
invokes the session's `connect()` exactly once and returns `noRestart`; the
timer is armed afterwards only via the failure path of `connect()` (a failed
attempt with `autoConnect` true), never by the expire callback itself. -/
theorem expire_connect_once_no_self_rearm (failed : Bool) (s : SessionState)
    (h : s.timer.canExpire = true) :
    (timerFire failed s).connectCount = s.connectCount + 1 ∧
    (expire failed { s with timer := { s.timer with pending := none } }).1 =
      ExpireStatus.noRestart ∧
    ((timerFire failed s).timer.pending.isSome = true →
      failed = true ∧ s.autoConnect = true) := by
  rw [timerFire_eq, if_pos h]
  refine ⟨?_, rfl, ?_⟩
  · cases hfa : failed && s.autoConnect <;>
      simp [connectStep, AutoConnect.start, EpicsTimer.startWith, hfa]
  · cases hfa : failed && s.autoConnect with
    | true =>
        intro _
        simpa [Bool.and_eq_true] using hfa
    | false =>
        intro hp
        simp [connectStep, hfa] at hp

/-- Witness for C1 at a concrete armed session. -/
theorem expire_connect_once_no_self_rearm_witness :
    (timerFire true armedSession).connectCount = armedSession.connectCount + 1 ∧
    (expire true { armedSession with
        timer := { armedSession.timer with pending := none } }).1 =
      ExpireStatus.noRestart ∧
    ((timerFire true armedSession).timer.pending.isSome = true →
      true = true ∧ armedSession.autoConnect = true) :=
  expire_connect_once_no_self_rearm true armedSession rfl

/-- Helper: a timer that cannot expire never fires. -/
theorem timerFire_dead (failed : Bool) (s : SessionState)
    (h : s.timer.canExpire = false) : timerFire failed s = s := by
  rw [timerFire_eq, if_neg]
  simp [h]

/-- Helper: a session whose timer cannot expire is unchanged by any sequence
of timer firings. -/
theorem runFires_dead (outcomes : List Bool) (s : SessionState)
    (h : s.timer.canExpire = false) : runFires outcomes s = s := by
  induction outcomes with
  | nil => rfl
  | cons f rest ih =>
      show runFires rest (timerFire f s) = s
      rw [timerFire_dead f s h]
      exact ih

/-- C4: destroying the Session destroys its Auto-Reconnect Timer and aborts
any pending expiry: afterwards the timer can never expire, every sequence of
timer-queue firings leaves the session untouched, and zero further
`connect()` invocations occur. -/
theorem sessionDestruct_no_callbacks (s : SessionState) (outcomes : List Bool) :
    (sessionDestruct s).timer.canExpire = false ∧
    runFires outcomes (sessionDestruct s) = sessionDestruct s ∧
    (runFires outcomes (sessionDestruct s)).connectCount = s.connectCount := by
  have hdead : (sessionDestruct s).timer.canExpire = false := rfl
  refine ⟨hdead, runFires_dead outcomes _ hdead, ?_⟩
  rw [runFires_dead outcomes _ hdead]
  rfl

/-- Helper: the delay invariant holds at construction. -/
theorem delayInv_mkSession (c : Rat) (auto : Bool) :
    delayInv c (mkSession c auto) :=
  ⟨rfl, fun _ hd => by cases hd⟩

/-- Helper: the delay invariant is preserved by a `connect()` step. -/
theorem delayInv_connectStep (c : Rat) (failed : Bool) (s : SessionState)
    (h : delayInv c s) : delayInv c (connectStep failed s) := by
  obtain ⟨hd, hp⟩ := h
  cases hfa : failed && s.autoConnect with
  | true =>
      refine ⟨?_, ?_⟩ <;>
        simp [connectStep, AutoConnect.start, EpicsTimer.startWith, hfa, hd]
  | false =>
      refine ⟨?_, ?_⟩
      · simp [connectStep, hfa, hd]
      · intro d hdp
        apply hp
        simpa [connectStep, hfa] using hdp

/-- Helper: the delay invariant is preserved by every trace operation. -/
theorem delayInv_step (c : Rat) (op : SessionOp) (s : SessionState)
    (h : delayInv c s) : delayInv c (stepOp s op) := by
  cases op with
  | connectCall failed => exact delayInv_connectStep c failed s h
  | fire failed =>
      show delayInv c (timerFire failed s)
      rw [timerFire_eq]
      by_cases hce : s.timer.canExpire = true
      · rw [if_pos hce]
        exact delayInv_connectStep c failed _ ⟨h.1, fun _ hd => by cases hd⟩
      · rw [if_neg hce]
        exact h

/-- Helper: the delay invariant is preserved by whole traces. -/
theorem delayInv_runOps (c : Rat) (ops : List SessionOp) (s : SessionState)
    (h : delayInv c s) : delayInv c (runOps ops s) := by
  induction ops generalizing s with
  | nil => exact h
  | cons op rest ih => exact ih (stepOp s op) (delayInv_step c op s h)

/-- C5: along every trace of operations on a session constructed with the
configuration constant `opcua_ConnectTimeout` as its delay, the stored delay
stays that constant and every timer arm carries exactly it — the delay never
changes between retries (no exponential backoff). -/
theorem autoConnect_delay_fixed (c : Rat) (auto : Bool) (ops : List SessionOp)
    (d : Rat) (h : (runOps ops (mkSession c auto)).timer.pending = some d) :
    (runOps ops (mkSession c auto)).delay = c ∧ d = c := by
  have hinv := delayInv_runOps c ops (mkSession c auto) (delayInv_mkSession c auto)
  exact ⟨hinv.1, hinv.2 d h⟩

/-- Witness for C5: a failed connect on a fresh autoConnect session arms the
timer with the construction-time delay 7. -/
theorem autoConnect_delay_fixed_witness :
    (runOps [SessionOp.connectCall true] (mkSession 7 true)).delay = 7 ∧
    (7 : Rat) = 7 :=
  autoConnect_delay_fixed 7 true [SessionOp.connectCall true] 7 rfl

/-- C9: `createSession` unconditionally constructs a new session object —
even when a session of that name already exists, it silently creates a
second object of the same name; its type reports no error and returns
nothing besides the new state. -/
theorem createSession_unconditional (st : ProcState) (name url : String)
    (dbg : Int) (auto : Bool)
    (h : 1 ≤ st.sessions.countP (fun s => s.name == name)) :
    (createSession st name url dbg auto).1.sessions =
      st.sessions ++ [⟨name, url, auto, dbg⟩] ∧
    (createSession st name url dbg auto).1.sessions.countP
      (fun s => s.name == name) =
      st.sessions.countP (fun s => s.name == name) + 1 ∧
    2 ≤ (createSession st name url dbg auto).1.sessions.countP
      (fun s => s.name == name) := by
  have hsess : (createSession st name url dbg auto).1.sessions =
      st.sessions ++ [⟨name, url, auto, dbg⟩] := by
    unfold createSession runOnceInit
    by_cases ho : st.onceDone = true <;> simp [ho]
  have hcount : (createSession st name url dbg auto).1.sessions.countP
      (fun s => s.name == name) =
      st.sessions.countP (fun s => s.name == name) + 1 := by
    rw [hsess, List.countP_append]
    simp [List.countP_cons]
  refine ⟨hsess, hcount, ?_⟩
  rw [hcount]
  omega

/-- Witness for C9: creating a second session named s1 in a process that
already has one. -/
theorem createSession_unconditional_witness :
    (createSession dupState "s1" "url2" 0 true).1.sessions =
      dupState.sessions ++ [⟨"s1", "url2", true, 0⟩] ∧
    (createSession dupState "s1" "url2" 0 true).1.sessions.countP
      (fun s => s.name == "s1") =
      dupState.sessions.countP (fun s => s.name == "s1") + 1 ∧
    2 ≤ (createSession dupState "s1" "url2" 0 true).1.sessions.countP
      (fun s => s.name == "s1") :=
  createSession_unconditional dupState "s1" "url2" 0 true (by decide)

/-- Helper: once the platform init has run, later `createSession` calls run
it no further and emit no init event. -/
theorem runCreates_done (calls : List SessionObj) (st : ProcState)
    (h : st.onceDone = true) :
    (runCreates calls st).1.platformInitCount = st.platformInitCount ∧
    (runCreates calls st).2.countP
      (fun e => decide (e = ProcEvent.platformInit)) = 0 := by
  induction calls generalizing st with
  | nil => exact ⟨rfl, rfl⟩
  | cons cll rest ih =>
      have hcs : createSession st cll.name cll.url cll.debuglevel cll.autoConnect =
          ({ st with sessions :=
              st.sessions ++ [⟨cll.name, cll.url, cll.autoConnect, cll.debuglevel⟩] },
           [ProcEvent.sessionConstructed cll.name]) := by
        unfold createSession runOnceInit
        simp [h]
      have hrest := ih { st with sessions :=
          st.sessions ++ [⟨cll.name, cll.url, cll.autoConnect, cll.debuglevel⟩] } h
      simp only [runCreates, hcs]
      refine ⟨hrest.1, ?_⟩
      rw [List.countP_append, hrest.2]
      simp [List.countP_cons]

/-- C10: across every nonempty sequence of `createSession` calls in a fresh
process, `UaPlatformLayer::init` (via `epicsThreadOnce`) runs exactly once,
and the init event is the very first event of the trace — before the first
session object is constructed. -/
theorem platformInit_once_first (calls : List SessionObj) (h : calls ≠ []) :
    (runCreates calls initialProcState).1.platformInitCount = 1 ∧
    (runCreates calls initialProcState).2.countP
      (fun e => decide (e = ProcEvent.platformInit)) = 1 ∧
    (runCreates calls initialProcState).2.head? = some ProcEvent.platformInit := by
  cases calls with
  | nil => exact absurd rfl h
  | cons cll rest =>
      have hcs : createSession initialProcState cll.name cll.url cll.debuglevel
            cll.autoConnect =
          ({ platformInitCount := 1, onceDone := true,
             sessions := [⟨cll.name, cll.url, cll.autoConnect, cll.debuglevel⟩] },
           [ProcEvent.platformInit, ProcEvent.sessionConstructed cll.name]) := by
        unfold createSession runOnceInit initialProcState
        simp
      have hrest := runCreates_done rest
        { platformInitCount := 1, onceDone := true,
          sessions := [⟨cll.name, cll.url, cll.autoConnect, cll.debuglevel⟩] } rfl
      simp only [runCreates, hcs]
      refine ⟨hrest.1, ?_, rfl⟩
      rw [List.countP_append, hrest.2]
      simp [List.countP_cons]

/-- Witness for C10: a single `createSession` call in a fresh process. -/
theorem platformInit_once_first_witness :
    (runCreates [⟨"s1", "url1", true, 0⟩] initialProcState).1.platformInitCount = 1 ∧
    (runCreates [⟨"s1", "url1", true, 0⟩] initialProcState).2.countP
      (fun e => decide (e = ProcEvent.platformInit)) = 1 ∧
    (runCreates [⟨"s1", "url1", true, 0⟩] initialProcState).2.head? =
      some ProcEvent.platformInit :=
  platformInit_once_first [⟨"s1", "url1", true, 0⟩] (by simp)

end DevOpcua
